import Mathlib

/-!
Shallow embedding of `csrs_dashboard.py` (CSR analytics dashboard generator).

The script loads a Jira export into a pandas DataFrame, preprocesses it
(`preprocess_data`), computes a metrics snapshot (`get_metrics`), and renders an
HTML document embedding the rows as JSON together with a JavaScript
re-implementation of the aggregation (`calculateMetrics`, `filterData`,
`resetFilters`).

Modelling conventions:
* A pandas float cell is a `PVal`: NaN (which is also how pandas represents a
  missing numeric value), a finite rational, or a signed infinity.
* Timestamps are whole day indices (`Int`, days since the Unix epoch); `none`
  is NaT.  The script only ever uses day precision (week bucketing, date-range
  filtering with an end-of-day-inclusive upper bound), so this loses nothing
  the claims talk about.
* pandas `sort_values` / JS `Array.prototype.sort` are modelled by a stable
  insertion sort over the comparator the code passes.
* Machine floats are modelled by `ℚ`; no claim depends on rounding error of
  binary floating point, only on NaN/∞ propagation, which `PVal` captures.
-/

/-- A pandas numeric cell: NaN (missing), a finite value, or ±∞
(`inf true` = +∞, `inf false` = -∞). -/
inductive PVal where
  | na : PVal
  | num : ℚ → PVal
  | inf : Bool → PVal
deriving DecidableEq

/-- `pd.isna` on a numeric cell. -/
def PVal.isNA : PVal → Bool
  | .na => true
  | _ => false

/-- Whether the cell holds an infinity. -/
def PVal.isInf : PVal → Bool
  | .inf _ => true
  | _ => false

/-- The pandas comparison `v > 0` (False on NaN, True on +∞). -/
def gtZero : PVal → Bool
  | .na => false
  | .num q => decide (0 < q)
  | .inf b => b

/-- `a ≥ b` in the order pandas sorts by when told `ascending=False` with
`na_position='last'`: NaN sinks to the end, `-∞ < finite < +∞` otherwise.
`geB a b = true` means `a` may be placed before `b` in descending order. -/
def geB : PVal → PVal → Bool
  | _, .na => true
  | .na, _ => false
  | .inf true, _ => true
  | _, .inf true => false
  | .num q, .num r => decide (r ≤ q)
  | .num _, .inf false => true
  | .inf false, .num _ => false
  | .inf false, .inf false => true

theorem geB_refl (a : PVal) : geB a a = true := by
  cases a with
  | na => rfl
  | num q => simp [geB]
  | inf b => cases b <;> rfl

theorem geB_total : ∀ a b : PVal, geB a b = true ∨ geB b a = true := by
  intro a b
  rcases a with _ | qa | (_ | _) <;> rcases b with _ | qb | (_ | _) <;>
    simp [geB] <;> exact le_total qb qa

theorem geB_trans : ∀ a b c : PVal,
    geB a b = true → geB b c = true → geB a c = true := by
  intro a b c h1 h2
  rcases a with _ | qa | (_ | _) <;> rcases b with _ | qb | (_ | _) <;>
    rcases c with _ | qc | (_ | _) <;> simp_all [geB] <;> exact le_trans h2 h1

/-- Binary minimum used to model `Series.min` on NaN-free data
(ties keep the earlier element). -/
def pmin2 (a b : PVal) : PVal := if geB b a then a else b

/-- Binary maximum used to model `Series.max` on NaN-free data. -/
def pmax2 (a b : PVal) : PVal := if geB a b then a else b

/-- `Series.min` with `skipna=True`: drop NaN, NaN if nothing is left. -/
def seriesMin (l : List PVal) : PVal :=
  match l.filter (fun v => !v.isNA) with
  | [] => .na
  | v :: vs => vs.foldl pmin2 v

/-- `Series.max` with `skipna=True`: drop NaN, NaN if nothing is left. -/
def seriesMax (l : List PVal) : PVal :=
  match l.filter (fun v => !v.isNA) with
  | [] => .na
  | v :: vs => vs.foldl pmax2 v

/-! ### Generic list machinery: first occurrences, stable insertion sort -/

/-- Helper for `firsts`: keep the first occurrence of each element not in
`seen`. -/
def firstsAux {α : Type} [DecidableEq α] (seen : List α) : List α → List α
  | [] => []
  | a :: l => if a ∈ seen then firstsAux seen l else a :: firstsAux (a :: seen) l

/-- The distinct elements of a list in order of first occurrence (the key order
of a JS object built by repeated insertion, and of a pandas grouping before any
explicit sort). -/
def firsts {α : Type} [DecidableEq α] (l : List α) : List α := firstsAux [] l

theorem mem_firstsAux {α : Type} [DecidableEq α] (x : α) :
    ∀ (l seen : List α), x ∈ firstsAux seen l ↔ x ∈ l ∧ x ∉ seen := by
  intro l
  induction l with
  | nil => intro seen; simp [firstsAux]
  | cons a l ih =>
    intro seen
    by_cases ha : a ∈ seen
    · have hax : x = a → x ∈ seen := fun h => by rw [h]; exact ha
      rw [firstsAux, if_pos ha, ih]
      simp only [List.mem_cons]
      tauto
    · have hax : x = a → x ∉ seen := fun h hs => ha (h ▸ hs)
      rw [firstsAux, if_neg ha]
      simp only [List.mem_cons, ih]
      tauto

theorem mem_firsts {α : Type} [DecidableEq α] (x : α) (l : List α) :
    x ∈ firsts l ↔ x ∈ l := by
  simp [firsts, mem_firstsAux]

theorem nodup_firstsAux {α : Type} [DecidableEq α] :
    ∀ (l seen : List α), (firstsAux seen l).Nodup := by
  intro l
  induction l with
  | nil => intro seen; simp [firstsAux]
  | cons a l ih =>
    intro seen
    by_cases ha : a ∈ seen
    · simpa [firstsAux, if_pos ha] using ih seen
    · simp only [firstsAux, if_neg ha, List.nodup_cons]
      refine ⟨fun hmem => ?_, ih (a :: seen)⟩
      exact ((mem_firstsAux a l (a :: seen)).1 hmem).2 (List.mem_cons_self a seen)

theorem nodup_firsts {α : Type} [DecidableEq α] (l : List α) :
    (firsts l).Nodup := nodup_firstsAux l []

/-- Insert an element into a (sorted) list: `a` goes before the first element
`b` with `le a b`.  With `isort` below this is a stable sort. -/
def insertLe {α : Type} (le : α → α → Bool) (a : α) : List α → List α
  | [] => [a]
  | b :: l => if le a b then a :: b :: l else b :: insertLe le a l

/-- Stable insertion sort by the boolean comparator `le`
(`le x y = true` means `x` may be placed before `y`). -/
def isort {α : Type} (le : α → α → Bool) : List α → List α
  | [] => []
  | a :: l => insertLe le a (isort le l)

theorem mem_insertLe {α : Type} (le : α → α → Bool) (a x : α) :
    ∀ l : List α, x ∈ insertLe le a l ↔ x = a ∨ x ∈ l := by
  intro l
  induction l with
  | nil => simp [insertLe]
  | cons b l ih =>
    by_cases h : le a b
    · simp [insertLe, if_pos h]
    · simp only [insertLe, if_neg h, List.mem_cons, ih]
      tauto

theorem mem_isort {α : Type} (le : α → α → Bool) (x : α) :
    ∀ l : List α, x ∈ isort le l ↔ x ∈ l := by
  intro l
  induction l with
  | nil => simp [isort]
  | cons a l ih => simp [isort, mem_insertLe, ih]

theorem length_insertLe {α : Type} (le : α → α → Bool) (a : α) :
    ∀ l : List α, (insertLe le a l).length = l.length + 1 := by
  intro l
  induction l with
  | nil => rfl
  | cons b l ih =>
    by_cases h : le a b
    · simp [insertLe, if_pos h]
    · simp [insertLe, if_neg h, ih]

theorem length_isort {α : Type} (le : α → α → Bool) :
    ∀ l : List α, (isort le l).length = l.length := by
  intro l
  induction l with
  | nil => rfl
  | cons a l ih => simp [isort, length_insertLe, ih]

theorem nodup_insertLe {α : Type} (le : α → α → Bool) (a : α) :
    ∀ l : List α, a ∉ l → l.Nodup → (insertLe le a l).Nodup := by
  intro l
  induction l with
  | nil => intro _ _; simp [insertLe]
  | cons b l ih =>
    intro hna hnd
    rcases List.nodup_cons.1 hnd with ⟨hbl, hl⟩
    by_cases h : le a b
    · simp only [insertLe, if_pos h, List.nodup_cons]
      exact ⟨hna, hbl, hl⟩
    · simp only [insertLe, if_neg h, List.nodup_cons, mem_insertLe]
      refine ⟨?_, ih (fun hx => hna (List.mem_cons_of_mem b hx)) hl⟩
      rintro (rfl | hb)
      · exact hna (List.mem_cons_self b l)
      · exact hbl hb

theorem nodup_isort {α : Type} (le : α → α → Bool) :
    ∀ l : List α, l.Nodup → (isort le l).Nodup := by
  intro l
  induction l with
  | nil => intro _; simp [isort]
  | cons a l ih =>
    intro hnd
    rcases List.nodup_cons.1 hnd with ⟨hal, hl⟩
    exact nodup_insertLe le a (isort le l)
      (fun hx => hal ((mem_isort le a l).1 hx)) (ih hl)

theorem pairwise_insertLe {α : Type} (le : α → α → Bool)
    (htr : ∀ x y z, le x y = true → le y z = true → le x z = true)
    (hto : ∀ x y, le x y = true ∨ le y x = true) (a : α) :
    ∀ l : List α, l.Pairwise (fun x y => le x y = true) →
      (insertLe le a l).Pairwise (fun x y => le x y = true) := by
  intro l
  induction l with
  | nil => intro _; simp [insertLe]
  | cons b l ih =>
    intro hp
    rcases List.pairwise_cons.1 hp with ⟨hb, hl⟩
    by_cases h : le a b
    · simp only [insertLe, if_pos h, List.pairwise_cons]
      refine ⟨?_, hb, hl⟩
      intro y hy
      rcases List.mem_cons.1 hy with rfl | hy
      · exact h
      · exact htr a b y h (hb y hy)
    · simp only [insertLe, if_neg h, List.pairwise_cons]
      refine ⟨?_, ih hl⟩
      intro y hy
      rcases (mem_insertLe le a y l).1 hy with rfl | hy
      · rcases hto y b with hyb | hby
        · exact absurd hyb h
        · exact hby
      · exact hb y hy

theorem pairwise_isort {α : Type} (le : α → α → Bool)
    (htr : ∀ x y z, le x y = true → le y z = true → le x z = true)
    (hto : ∀ x y, le x y = true ∨ le y x = true) :
    ∀ l : List α, (isort le l).Pairwise (fun x y => le x y = true) := by
  intro l
  induction l with
  | nil => simp [isort]
  | cons a l ih => exact pairwise_insertLe le htr hto a (isort le l) ih

/-! ### Fold lemmas for `Series.min` / `Series.max` -/

theorem pmin2_choice (a b : PVal) : pmin2 a b = a ∨ pmin2 a b = b := by
  unfold pmin2; split <;> simp

theorem pmax2_choice (a b : PVal) : pmax2 a b = a ∨ pmax2 a b = b := by
  unfold pmax2; split <;> simp

theorem geB_left_pmin2 (a b : PVal) : geB a (pmin2 a b) = true := by
  unfold pmin2; split
  · exact geB_refl a
  · rename_i h
    rcases geB_total a b with h1 | h1
    · exact h1
    · exact absurd h1 h

theorem geB_right_pmin2 (a b : PVal) : geB b (pmin2 a b) = true := by
  unfold pmin2; split
  · assumption
  · exact geB_refl b

theorem geB_pmax2_left (a b : PVal) : geB (pmax2 a b) a = true := by
  unfold pmax2; split
  · exact geB_refl a
  · rename_i h
    rcases geB_total a b with h1 | h1
    · exact absurd h1 h
    · exact h1

theorem geB_pmax2_right (a b : PVal) : geB (pmax2 a b) b = true := by
  unfold pmax2; split
  · assumption
  · exact geB_refl b

theorem foldl_pmin2_mem : ∀ (vs : List PVal) (v : PVal),
    vs.foldl pmin2 v = v ∨ vs.foldl pmin2 v ∈ vs := by
  intro vs
  induction vs with
  | nil => intro v; left; rfl
  | cons a vs ih =>
    intro v
    rcases ih (pmin2 v a) with h | h
    · rcases pmin2_choice v a with h2 | h2
      · left; simpa [List.foldl_cons, h2] using h
      · right; rw [List.foldl_cons, h, h2]; exact List.mem_cons_self a vs
    · right; rw [List.foldl_cons]; exact List.mem_cons_of_mem a h

theorem foldl_pmin2_le : ∀ (vs : List PVal) (v x : PVal),
    (x = v ∨ x ∈ vs) → geB x (vs.foldl pmin2 v) = true := by
  intro vs
  induction vs with
  | nil =>
    rintro v x (rfl | hx)
    · exact geB_refl x
    · cases hx
  | cons a vs ih =>
    rintro v x (rfl | hx)
    · rw [List.foldl_cons]
      exact geB_trans x (pmin2 x a) _ (geB_left_pmin2 x a)
        (ih (pmin2 x a) (pmin2 x a) (Or.inl rfl))
    · rcases List.mem_cons.1 hx with rfl | hx
      · rw [List.foldl_cons]
        exact geB_trans x (pmin2 v x) _ (geB_right_pmin2 v x)
          (ih (pmin2 v x) (pmin2 v x) (Or.inl rfl))
      · rw [List.foldl_cons]
        exact ih (pmin2 v a) x (Or.inr hx)

theorem foldl_pmax2_mem : ∀ (vs : List PVal) (v : PVal),
    vs.foldl pmax2 v = v ∨ vs.foldl pmax2 v ∈ vs := by
  intro vs
  induction vs with
  | nil => intro v; left; rfl
  | cons a vs ih =>
    intro v
    rcases ih (pmax2 v a) with h | h
    · rcases pmax2_choice v a with h2 | h2
      · left; simpa [List.foldl_cons, h2] using h
      · right; rw [List.foldl_cons, h, h2]; exact List.mem_cons_self a vs
    · right; rw [List.foldl_cons]; exact List.mem_cons_of_mem a h

theorem foldl_pmax2_ge : ∀ (vs : List PVal) (v x : PVal),
    (x = v ∨ x ∈ vs) → geB (vs.foldl pmax2 v) x = true := by
  intro vs
  induction vs with
  | nil =>
    rintro v x (rfl | hx)
    · exact geB_refl x
    · cases hx
  | cons a vs ih =>
    rintro v x (rfl | hx)
    · rw [List.foldl_cons]
      exact geB_trans _ (pmax2 x a) x
        (ih (pmax2 x a) (pmax2 x a) (Or.inl rfl)) (geB_pmax2_left x a)
    · rcases List.mem_cons.1 hx with rfl | hx
      · rw [List.foldl_cons]
        exact geB_trans _ (pmax2 v x) x
          (ih (pmax2 v x) (pmax2 v x) (Or.inl rfl)) (geB_pmax2_right v x)
      · rw [List.foldl_cons]
        exact ih (pmax2 v a) x (Or.inr hx)

/-! ### Data model

One row of the preprocessed DataFrame.  Column names (see §3 of the design
notes in the source): `Clave` = key, `Resumen` = summary, `Estado` = status,
`Pr` = priority, `T` = type, `Persona asignada` = assignee, `Desarrollador` =
developer, `Creada` = created_at, `Fecha Planificada/Real de Liberación` =
planned/actual release, `Liberación retrasada por` = delay_days,
`Estado Desarrollo > 30 días` = dev_duration_flag,
`Desarrollo y liberada > 60 Días` = dev_to_release_flag. -/
structure Record where
  clave : String
  resumen : String
  estado : Option String
  pr : Option String
  tipo : Option String
  persona : Option String
  dev : Option String
  creada : Option Int
  fechaPlan : Option Int
  fechaReal : Option Int
  delay : PVal
  dev30 : PVal
  dev60 : PVal
deriving DecidableEq

/-- The string form of a weekly pandas period: either an actual calendar week
(`to_period('W')`, identified up to order by its week index, Monday-start
weeks counted from the epoch week) or the literal string `'NaT'` that
`astype(str)` produces for a missing timestamp.  String comparison on the
rendered labels (`'1970-01-05/1970-01-11'` < … < `'NaT'`) agrees with the
order below, because the date labels are zero-padded and `'N' > '0'..'9'`. -/
inductive WeekBucket where
  | w : Int → WeekBucket
  | natLabel : WeekBucket
deriving DecidableEq

/-- Comparator for `WeekBucket` matching lexicographic order on the rendered
strings: weeks ascend by index, `'NaT'` sorts after every date label. -/
def wbLeB : WeekBucket → WeekBucket → Bool
  | _, .natLabel => true
  | .natLabel, _ => false
  | .w a, .w b => decide (a ≤ b)

theorem wbLeB_total : ∀ a b : WeekBucket, wbLeB a b = true ∨ wbLeB b a = true := by
  intro a b
  rcases a with a | _ <;> rcases b with b | _ <;> simp [wbLeB] <;> exact le_total a b

theorem wbLeB_trans : ∀ a b c : WeekBucket,
    wbLeB a b = true → wbLeB b c = true → wbLeB a c = true := by
  intro a b c h1 h2
  rcases a with a | _ <;> rcases b with b | _ <;> rcases c with c | _ <;>
    simp_all [wbLeB] <;> exact le_trans h1 h2

/-- Strict version of the bucket order (used to state that the trend keys are
strictly ascending). -/
def wbLt (a b : WeekBucket) : Prop := wbLeB a b = true ∧ a ≠ b

/-- `Timestamp.to_period('W')`: the Monday-start week containing day `d`
(day 0 = 1970-01-01, a Thursday, belongs to week 0, days -3..3). -/
def weekOf (d : Int) : Int := (d + 3).fdiv 7

/-- `Series.dt.to_period('W').astype(str)` on one cell: NaT becomes the
literal string `'NaT'`, which is a perfectly valid group key. -/
def bucketOf : Option Int → WeekBucket
  | none => .natLabel
  | some d => .w (weekOf d)

/-! ### get_metrics (server-side Aggregator), field by field -/

/-- `series.replace([inf, -inf], nan).dropna()` as a list of rationals. -/
def finiteVals (l : List PVal) : List ℚ :=
  l.filterMap (fun v => match v with | .num q => some q | _ => none)

/-- `series.replace([inf, -inf], nan).dropna().mean()`, with the NaN result of
an empty mean replaced by `0.0` as the snapshot constructor does. -/
def avgFinite (l : List PVal) : ℚ :=
  if finiteVals l = [] then 0 else (finiteVals l).sum / ((finiteVals l).length : ℚ)

/-- `(series > 0).sum()`: how many cells compare strictly greater than zero
(False for NaN, True for +∞). -/
def countPos (l : List PVal) : ℕ := l.countP gtZero

/-- `(series > 0).mean() * 100 if total > 0 else 0`. -/
def pctPos (l : List PVal) (total : ℕ) : ℚ :=
  if 0 < total then ((countPos l : ℚ) / (total : ℚ)) * 100 else 0

/-- `df[col].max()` followed by the `0.0 if isna` guard in the snapshot
constructor.  Note: infinities are NOT excluded here (only `avg_delay`
replaces them), so the result can be `±∞`. -/
def max_delayOf (l : List PVal) : PVal :=
  if (seriesMax l).isNA then .num 0 else seriesMax l

/-- `valid = df[col][df[col] > 0].dropna(); valid.min() if not valid.empty
else 0.0`, followed by the `0.0 if isna` guard.  The `> 0` mask is False on
NaN and True on `+∞`, so `valid` is NaN-free but may contain `+∞`. -/
def min_delayOf (l : List PVal) : PVal :=
  if (l.filter gtZero).isEmpty then .num 0
  else if (seriesMin (l.filter gtZero)).isNA then .num 0
  else seriesMin (l.filter gtZero)

/-- `series.value_counts().to_dict()`: occurrence counts of the non-null
values, sorted by count descending (stable on the first-occurrence order). -/
def value_counts (opts : List (Option String)) : List (String × ℕ) :=
  let ks := opts.filterMap id
  isort (fun a b => decide (b.2 ≤ a.2)) ((firsts ks).map (fun k => (k, ks.count k)))

/-- NaN-skipping sum of a NaN-free cell list (`∞ + -∞` is NaN, as in numpy). -/
def padd : PVal → PVal → PVal
  | .na, _ => .na
  | _, .na => .na
  | .num q, .num r => .num (q + r)
  | .inf b, .num _ => .inf b
  | .num _, .inf b => .inf b
  | .inf b, .inf c => if b = c then .inf b else .na

/-- Divide a cell by a (positive) count. -/
def pdivNat (v : PVal) (n : ℕ) : PVal :=
  match v with
  | .num q => .num (q / (n : ℚ))
  | x => x

/-- `Series.mean()` (skipna, without replacing infinities). -/
def pmeanOf (l : List PVal) : PVal :=
  match l.filter (fun v => !v.isNA) with
  | [] => .na
  | v :: vs => pdivNat (vs.foldl padd v) (v :: vs).length

/-- String comparator (`a` may precede `b` in ascending order). -/
def strLeB (a b : String) : Bool := !(decide (b < a))

/-- `df.groupby(key)[delay].mean().sort_values(ascending=False).to_dict()`:
group keys are the distinct non-null values (groupby sorts them ascending),
each mapped to the skipna mean of the group's delays, then the mapping is
re-sorted by mean descending (NaN means last). -/
def delayByGroup (rs : List Record) (key : Record → Option String) : List (String × PVal) :=
  let ks := isort strLeB (firsts (rs.filterMap key))
  let pairs := ks.map (fun k =>
    (k, pmeanOf ((rs.filter (fun r => key r = some k)).map (fun r => r.delay))))
  isort (fun a b => geB a.2 b.2) pairs

/-- `df.groupby(weekcol).size().to_dict()`: per-bucket sizes, keys sorted
ascending (pandas groupby sorts group keys). -/
def trendOf (ks : List WeekBucket) : List (WeekBucket × ℕ) :=
  (isort wbLeB (firsts ks)).map (fun k => (k, ks.count k))

/-- `df.sort_values(field, ascending=False).head(10)` guarded by
`field.isnull().all()` (all-null or empty gives an empty frame).  NaN rows
sort last but are NOT dropped, so they fill up the tail when fewer than 10
rows have a value. -/
def top10By (rs : List Record) (f : Record → PVal) : List Record :=
  if rs.all (fun r => (f r).isNA) then []
  else (isort (fun a b => geB (f a) (f b)) rs).take 10

/-- The DataFrame as `get_metrics` sees it: the rows plus the `Creada_week`
helper column, which does not exist until `get_metrics` itself assigns it. -/
structure Table where
  rows : List Record
  creadaWeek : Option (List WeekBucket)
deriving DecidableEq

/-- The metrics snapshot returned by `get_metrics`. -/
structure Snapshot where
  total_csrs : ℕ
  avg_delay : ℚ
  pct_late : ℚ
  avg_dev_gt30 : ℚ
  num_dev_gt30 : ℕ
  avg_devlib_gt60 : ℚ
  num_devlib_gt60 : ℕ
  max_delay : PVal
  min_delay : PVal
  by_estado : List (String × ℕ)
  by_pr : List (String × ℕ)
  by_tipo : List (String × ℕ)
  by_persona : List (String × ℕ)
  by_dev : List (String × ℕ)
  delay_by_persona : List (String × PVal)
  delay_by_dev : List (String × PVal)
  created_trend : List (WeekBucket × ℕ)
  resolved_trend : List (WeekBucket × ℕ)
  top_late : List Record
  top_dev_gt30 : List Record
  top_devlib_gt60 : List Record
deriving DecidableEq

/-- `get_metrics(df)`, including its side effect on the DataFrame: when
`Creada` is not all-null the function assigns `df['Creada_week'] = ...`,
mutating the caller's table.  Returns the table as it is after the call
together with the snapshot. -/
def get_metricsFull (t : Table) : Table × Snapshot :=
  let rs := t.rows
  let delays := rs.map (fun r => r.delay)
  let dev30s := rs.map (fun r => r.dev30)
  let dev60s := rs.map (fun r => r.dev60)
  let creadaGuard := !(rs.all (fun r => r.creada.isNone))
  let creadaWeekCol := rs.map (fun r => bucketOf r.creada)
  let realGuard := !(rs.all (fun r => r.fechaReal.isNone))
  let t' := if creadaGuard then { rows := rs, creadaWeek := some creadaWeekCol } else t
  (t',
   { total_csrs := rs.length
     avg_delay := avgFinite delays
     pct_late := pctPos delays rs.length
     avg_dev_gt30 := avgFinite dev30s
     num_dev_gt30 := countPos dev30s
     avg_devlib_gt60 := avgFinite dev60s
     num_devlib_gt60 := countPos dev60s
     max_delay := max_delayOf delays
     min_delay := min_delayOf delays
     by_estado := value_counts (rs.map (fun r => r.estado))
     by_pr := value_counts (rs.map (fun r => r.pr))
     by_tipo := value_counts (rs.map (fun r => r.tipo))
     by_persona := value_counts (rs.map (fun r => r.persona))
     by_dev := value_counts (rs.map (fun r => r.dev))
     delay_by_persona := delayByGroup rs (fun r => r.persona)
     delay_by_dev := delayByGroup rs (fun r => r.dev)
     created_trend := if creadaGuard then trendOf creadaWeekCol else []
     resolved_trend :=
       if realGuard then trendOf (rs.map (fun r => bucketOf r.fechaReal)) else []
     top_late := top10By rs (fun r => r.delay)
     top_dev_gt30 := top10By rs (fun r => r.dev30)
     top_devlib_gt60 := top10By rs (fun r => r.dev60) })

/-- `get_metrics` as a function of the rows alone (fresh table without the
helper column, as produced by `preprocess_data`). -/
def get_metrics (rs : List Record) : Snapshot :=
  (get_metricsFull { rows := rs, creadaWeek := none }).2

/-! ### Serialization of the DataFrame into the embedded JSON payload -/

/-- `html_escape` from the script. -/
def htmlEscape (s : String) : String :=
  (((((s.replace "&" "&amp;").replace "<" "&lt;").replace ">" "&gt;").replace
    "\"" "&quot;").replace "'" "&#039;")

/-- `series.replace([np.inf, -np.inf], np.nan)` on one numeric cell. -/
def replaceInfNan : PVal → PVal
  | .inf _ => .na
  | v => v

/-- `.fillna(0)` on one numeric cell. -/
def fillna0 : PVal → PVal
  | .na => .num 0
  | v => v

/-- A numeric cell as it is serialized into the JSON payload:
`replace([inf, -inf], nan).fillna(0)`. -/
def jsonNumP (v : PVal) : PVal := fillna0 (replaceInfNan v)

/-- The (always finite) rational carried by the serialized cell. -/
def jsonNum (v : PVal) : ℚ :=
  match jsonNumP v with
  | .num q => q
  | _ => 0

/-- An object-dtype (string) cell as serialized: HTML-escaped, `''` for null. -/
def jsonStr : Option String → String
  | none => ""
  | some s => htmlEscape s

/-- One row of the JSON payload embedded in the generated document.  Dates are
`strftime`-rendered strings with `''` for NaT, modelled as `Option Int` (day
index).  Numeric fields are plain (finite) numbers. -/
structure JRecord where
  clave : String
  resumen : String
  estado : String
  pr : String
  tipo : String
  persona : String
  dev : String
  creada : Option Int
  fechaPlan : Option Int
  fechaReal : Option Int
  delay : ℚ
  dev30 : ℚ
  dev60 : ℚ
deriving DecidableEq

/-- Serialization of one row (the `df_json_serializable` loop in
`render_dashboard`). -/
def serializeRecord (r : Record) : JRecord :=
  { clave := htmlEscape r.clave
    resumen := htmlEscape r.resumen
    estado := jsonStr r.estado
    pr := jsonStr r.pr
    tipo := jsonStr r.tipo
    persona := jsonStr r.persona
    dev := jsonStr r.dev
    creada := r.creada
    fechaPlan := r.fechaPlan
    fechaReal := r.fechaReal
    delay := jsonNum r.delay
    dev30 := jsonNum r.dev30
    dev60 := jsonNum r.dev60 }

/-! ### Civil-calendar arithmetic for the JS `getTrend` week formula -/

/-- Days since the epoch of `(year, 1, 1)` (standard civil-calendar
conversion, proleptic Gregorian, as `new Date(year, 0, 1)` uses). -/
def daysOfJan1 (y : Int) : Int :=
  let yp := y - 1
  let era := yp.fdiv 400
  let yoe := yp - era * 400
  let doe := yoe * 365 + yoe.fdiv 4 - yoe.fdiv 100 + 306
  era * 146097 + doe - 719468

/-- The civil year containing epoch day `z` (what `getFullYear()` returns). -/
def civilYear (z0 : Int) : Int :=
  let z := z0 + 719468
  let era := z.fdiv 146097
  let doe := z - era * 146097
  let yoe := (doe - doe.fdiv 1460 + doe.fdiv 36524 - doe.fdiv 146096).fdiv 365
  let y := yoe + era * 400
  let doy := doe - (365 * yoe + yoe.fdiv 4 - yoe.fdiv 100)
  let mp := (5 * doy + 2).fdiv 153
  let m := mp + (if mp < 10 then 3 else -9)
  y + (if m ≤ 2 then 1 else 0)

/-- The `(year, week)` pair of the JS `getTrend` week label
`` `${year}-W${pad2(week)}` ``: `year = date.getFullYear()`,
`week = ceil((dayOfYear + firstDayOfYear.getDay() + 1) / 7)` where `getDay()`
is 0 for Sunday (1970-01-01 was a Thursday, day value 4).  The rendered
labels compare lexicographically like these pairs (4-digit years, 2-digit
zero-padded weeks). -/
def jweekOf (z : Int) : Int × Int :=
  let y := civilYear z
  let jan1 := daysOfJan1 y
  let dow := (jan1 + 4).emod 7
  let dayOfYear := z - jan1
  let week := (dayOfYear + dow + 1 + 6).fdiv 7
  (y, week)

/-- Comparator on trend entries `((year, week), count)` matching
`Object.entries(trend).sort()`: default JS sort compares the stringified
entries, which for distinct fixed-width keys is lexicographic on
`(year, week)`. -/
def jsTrendLeB (a b : (Int × Int) × ℕ) : Bool :=
  decide (a.1.1 < b.1.1) || (decide (a.1.1 = b.1.1) && decide (a.1.2 ≤ b.1.2))

/-! ### calculateMetrics (client-side recomputation) -/

/-- `getCounts(arr, key)`: occurrence counts of truthy (non-empty) values,
keys in first-occurrence (object insertion) order. -/
def getCounts (data : List JRecord) (key : JRecord → String) : List (String × ℕ) :=
  let ks := (data.map key).filter (fun s => !(s == ""))
  (firsts ks).map (fun k => (k, ks.count k))

/-- `getAvgDelay(arr, key)`: per truthy key, `sum/count` of
`parseFloat(obj['Liberación retrasada por']) || 0` (the identity on the
serialized finite numbers), sorted by value descending (stable). -/
def getAvgDelay (data : List JRecord) (key : JRecord → String) : List (String × ℚ) :=
  let grouped := data.filter (fun d => !(key d == ""))
  let ks := firsts (grouped.map key)
  let res := ks.map (fun k =>
    let g := grouped.filter (fun d => key d == k)
    (k, (g.map (fun d => d.delay)).sum / (g.length : ℚ)))
  isort (fun a b => decide (b.2 ≤ a.2)) res

/-- `getTrend(arr, dateKey)`: count per `(year, week)` label over records with
a truthy date, entries sorted by stringified label. -/
def getTrend (data : List JRecord) (dateKey : JRecord → Option Int) :
    List ((Int × Int) × ℕ) :=
  let ks := (data.filterMap dateKey).map jweekOf
  isort jsTrendLeB ((firsts ks).map (fun k => (k, ks.count k)))

/-- The projection `getTop10` maps each row to. -/
structure JTop where
  resumen : String
  clave : String
  value : ℚ
  persona : String
  dev : String
deriving DecidableEq

/-- `getTop10(arr, sortKey)`: stable sort descending by
`parseFloat(row[sortKey]) || 0` (JS `Array.prototype.sort` is stable), first
10, projected.  Rows whose serialized value is `0` (including originally-null
cells) are NOT excluded. -/
def getTop10 (data : List JRecord) (f : JRecord → ℚ) : List JTop :=
  if data.length = 0 then []
  else ((isort (fun a b => decide (f b ≤ f a)) data).take 10).map
    (fun d => { resumen := d.resumen, clave := d.clave, value := f d,
                persona := d.persona, dev := d.dev })

/-- The client-side metrics snapshot. -/
structure JSnap where
  total_csrs : ℕ
  avg_delay : ℚ
  pct_late : ℚ
  avg_dev_gt30 : ℚ
  num_dev_gt30 : ℕ
  avg_devlib_gt60 : ℚ
  num_devlib_gt60 : ℕ
  max_delay : ℚ
  min_delay : ℚ
  by_estado : List (String × ℕ)
  by_pr : List (String × ℕ)
  by_tipo : List (String × ℕ)
  by_persona : List (String × ℕ)
  by_dev : List (String × ℕ)
  delay_by_persona : List (String × ℚ)
  delay_by_dev : List (String × ℚ)
  created_trend : List ((Int × Int) × ℕ)
  resolved_trend : List ((Int × Int) × ℕ)
  top_late : List JTop
  top_dev_gt30 : List JTop
  top_devlib_gt60 : List JTop
deriving DecidableEq

/-- `Math.max(...l)` over a non-empty list (0 when the guard falls through). -/
def jsMaxQ (l : List ℚ) : ℚ :=
  match l with
  | [] => 0
  | x :: xs => xs.foldl max x

/-- `Math.min(...l)` over a non-empty list (0 when the guard falls through). -/
def jsMinQ (l : List ℚ) : ℚ :=
  match l with
  | [] => 0
  | x :: xs => xs.foldl min x

/-- `calculateMetrics(data)` from the embedded script.  On the serialized
payload every numeric field is a finite number, so
`parseFloat(x) || 0` is the identity and the `!isNaN && isFinite` filter
keeps everything: `validDelays` equals `delayValues`, etc. -/
def calculateMetrics (data : List JRecord) : JSnap :=
  let total_csrs := data.length
  let delayValues := data.map (fun d => d.delay)
  let dev30Values := data.map (fun d => d.dev30)
  let dev60Values := data.map (fun d => d.dev60)
  { total_csrs := total_csrs
    avg_delay :=
      if 0 < delayValues.length then delayValues.sum / (delayValues.length : ℚ) else 0
    pct_late :=
      if 0 < total_csrs then
        (((delayValues.countP (fun d => decide (0 < d))) : ℚ) / (total_csrs : ℚ)) * 100
      else 0
    avg_dev_gt30 :=
      if 0 < dev30Values.length then dev30Values.sum / (dev30Values.length : ℚ) else 0
    num_dev_gt30 := dev30Values.countP (fun d => decide (0 < d))
    avg_devlib_gt60 :=
      if 0 < dev60Values.length then dev60Values.sum / (dev60Values.length : ℚ) else 0
    num_devlib_gt60 := dev60Values.countP (fun d => decide (0 < d))
    max_delay := jsMaxQ delayValues
    min_delay := jsMinQ delayValues
    by_estado := getCounts data (fun d => d.estado)
    by_pr := getCounts data (fun d => d.pr)
    by_tipo := getCounts data (fun d => d.tipo)
    by_persona := getCounts data (fun d => d.persona)
    by_dev := getCounts data (fun d => d.dev)
    delay_by_persona := getAvgDelay data (fun d => d.persona)
    delay_by_dev := getAvgDelay data (fun d => d.dev)
    created_trend := getTrend data (fun d => d.creada)
    resolved_trend := getTrend data (fun d => d.fechaReal)
    top_late := getTop10 data (fun d => d.delay)
    top_dev_gt30 := getTop10 data (fun d => d.dev30)
    top_devlib_gt60 := getTop10 data (fun d => d.dev60) }

/-! ### filterData / resetFilters (client-side interactivity) -/

/-- The current values of the seven filter controls.  An empty string means
"All"; a date control's `''` is `none`. -/
structure Controls where
  estado : String
  pr : String
  tipo : String
  persona : String
  dev : String
  startDate : Option Int
  endDate : Option Int
deriving DecidableEq

/-- The date-range part of the filter predicate.  A present release date must
lie in `[startDate, endDate]` (the end bound is pushed to 23:59:59.999, i.e.
inclusive of the whole end day); a missing release date fails exactly when
some bound is set. -/
def matchDate (startD endD : Option Int) (rel : Option Int) : Bool :=
  match rel with
  | some d =>
    (match startD with
     | some s => !(decide (d < s))
     | none => true) &&
    (match endD with
     | some e => !(decide (e < d))
     | none => true)
  | none => !(startD.isSome || endD.isSome)

/-- The full filter predicate of `filterData`: conjunction of the five
categorical equality tests (empty selector matches everything) and the date
test. -/
def recordMatches (c : Controls) (d : JRecord) : Bool :=
  ((c.estado == "") || (d.estado == c.estado)) &&
  ((c.pr == "") || (d.pr == c.pr)) &&
  ((c.tipo == "") || (d.tipo == c.tipo)) &&
  ((c.persona == "") || (d.persona == c.persona)) &&
  ((c.dev == "") || (d.dev == c.dev)) &&
  matchDate c.startDate c.endDate d.fechaReal

/-- The client-side mutable state: control values, `currentData`, and the
snapshot last pushed to the widgets by `updateDashboard`. -/
structure CState where
  controls : Controls
  currentData : List JRecord
  snapshot : JSnap

/-- `originalData.reduce(...)`: earliest non-null release date. -/
def minRelease (originalData : List JRecord) : Option Int :=
  originalData.foldl (fun acc d =>
    match d.fechaReal with
    | some cur =>
      match acc with
      | none => some cur
      | some m => if cur < m then some cur else some m
    | none => acc) none

/-- `originalData.reduce(...)`: latest non-null release date. -/
def maxRelease (originalData : List JRecord) : Option Int :=
  originalData.foldl (fun acc d =>
    match d.fechaReal with
    | some cur =>
      match acc with
      | none => some cur
      | some m => if m < cur then some cur else some m
    | none => acc) none

/-- `filterData()`: re-evaluate the whole original payload against the current
controls, recompute the snapshot from scratch, redraw. -/
def filterData (originalData : List JRecord) (s : CState) : CState :=
  let fd := originalData.filter (recordMatches s.controls)
  { controls := s.controls, currentData := fd, snapshot := calculateMetrics fd }

/-- `resetFilters()`: clear the categorical selectors, reset the date inputs
to the data's min/max release date, set `currentData = originalData` and
recompute the snapshot over the full payload. -/
def resetFilters (originalData : List JRecord) (_s : CState) : CState :=
  { controls :=
      { estado := "", pr := "", tipo := "", persona := "", dev := "",
        startDate := minRelease originalData, endDate := maxRelease originalData }
    currentData := originalData
    snapshot := calculateMetrics originalData }

/-- The state set up by the `DOMContentLoaded` handler: empty categorical
selectors, date inputs spanning the data, the initial snapshot over the full
payload. -/
def initialState (originalData : List JRecord) : CState :=
  { controls :=
      { estado := "", pr := "", tipo := "", persona := "", dev := "",
        startDate := minRelease originalData, endDate := maxRelease originalData }
    currentData := originalData
    snapshot := calculateMetrics originalData }

/-- Choose the value of exactly one of the five categorical dropdowns
(0 = Estado, 1 = Pr, 2 = T, 3 = Persona asignada, 4 = Desarrollador),
leaving the rest of the controls as they are. -/
def setSingleCategorical (i : Fin 5) (v : String) (c : Controls) : Controls :=
  match i with
  | 0 => { c with estado := v }
  | 1 => { c with pr := v }
  | 2 => { c with tipo := v }
  | 3 => { c with persona := v }
  | 4 => { c with dev := v }

/-! ### preprocess_data -/

/-- The DataFrame as it reaches the delay-derivation step of
`preprocess_data` (date and numeric coercions already applied):
`hasDelayCol` records whether the source spreadsheet had a
`'Liberación retrasada por'` column at all; when it did not, the `delay`
field of the rows is meaningless and about to be overwritten. -/
structure SrcTable where
  hasDelayCol : Bool
  rows : List Record
deriving DecidableEq

/-- `(df['Fecha Real de Liberación'] - df['Fecha Planificada de
Liberación']).dt.days` for one row: NaN unless both timestamps are present. -/
def deriveDelay (r : Record) : PVal :=
  match r.fechaReal, r.fechaPlan with
  | some a, some p => .num (((a - p : Int) : ℚ))
  | _, _ => .na

/-- The delay-derivation step of `preprocess_data`: the whole column is
(re)computed only when it is absent from the source or entirely NaN;
otherwise the rows pass through untouched. -/
def preprocess_data (t : SrcTable) : List Record :=
  if !t.hasDelayCol || t.rows.all (fun r => r.delay.isNA) then
    t.rows.map (fun r => { r with delay := deriveDelay r })
  else t.rows

/-! ### Display rounding and the snapshot-agreement predicate (from the spec)

The spec's refinement claim compares the two implementations "up to display
rounding to one decimal place" (`'{:.1f}'.format` / `toFixed(1)`). -/

/-- A rational as displayed with one decimal place, scaled by 10: the nearest
integer to `10 * q` (ties up; the exact tie convention is irrelevant to every
theorem below).  Two finite values display equal at one decimal place iff
`disp1` agrees. -/
def disp1 (q : ℚ) : ℤ := (20 * q.num + (q.den : ℤ)).fdiv (2 * (q.den : ℤ))

/-- What the server renders for a possibly non-finite KPI: a one-decimal
number, or no number at all (`nan`/`inf` text) for non-finite cells. -/
def pdisp : PVal → Option ℤ
  | .num q => some (disp1 q)
  | _ => none

/-- Spec-side definition (for the refinement claim): the scalar-KPI part of
"the server snapshot and the client snapshot are numerically equal in every
field up to display rounding".  The full claimed equality implies this
conjunction, so refuting it at an input refutes the claim there. -/
def kpisAgree (p : Snapshot) (j : JSnap) : Prop :=
  p.total_csrs = j.total_csrs ∧
  disp1 p.avg_delay = disp1 j.avg_delay ∧
  disp1 p.pct_late = disp1 j.pct_late ∧
  disp1 p.avg_dev_gt30 = disp1 j.avg_dev_gt30 ∧
  p.num_dev_gt30 = j.num_dev_gt30 ∧
  disp1 p.avg_devlib_gt60 = disp1 j.avg_devlib_gt60 ∧
  p.num_devlib_gt60 = j.num_devlib_gt60 ∧
  pdisp p.max_delay = some (disp1 j.max_delay) ∧
  pdisp p.min_delay = some (disp1 j.min_delay)

instance (p : Snapshot) (j : JSnap) : Decidable (kpisAgree p j) := by
  unfold kpisAgree; infer_instance

/-! ### Concrete fixtures used by counterexamples and witnesses -/

/-- A row with every field null/NaN. -/
def blankRecord : Record :=
  { clave := "", resumen := "", estado := none, pr := none, tipo := none,
    persona := none, dev := none, creada := none, fechaPlan := none,
    fechaReal := none, delay := .na, dev30 := .na, dev60 := .na }

/-- A row whose delay column holds the given cell. -/
def recDelay (v : PVal) : Record := { blankRecord with delay := v }

/-- More fixtures: a row with both release timestamps but no delay value. -/
def rTwoDates : Record := { blankRecord with fechaReal := some 10, fechaPlan := some 3 }

/-- A source table whose delay column exists and is not all-NaN. -/
def cexSrcTable : SrcTable := { hasDelayCol := true, rows := [recDelay (.num 5), rTwoDates] }

/-- A source table without the delay column. -/
def srcNoCol : SrcTable := { hasDelayCol := false, rows := [rTwoDates] }

/-- The row `preprocess_data` derives from `rTwoDates` when the column is
absent. -/
def rDerived : Record := { rTwoDates with delay := PVal.num ((10 - 3 : Int) : ℚ) }

/-- A clean row (finite values only) for witnesses. -/
def wRec : Record :=
  { blankRecord with
    delay := PVal.num 5
    dev30 := PVal.num 40
    estado := some "Listo" }

/-! ### Supporting lemmas for the claim theorems -/

theorem gtZero_not_na {x : PVal} (h : gtZero x = true) : x.isNA = false := by
  cases x with
  | na => exact absurd h (by simp [gtZero])
  | num q => rfl
  | inf b => rfl

theorem seriesMin_spec (l : List PVal) (hno : ∀ x ∈ l, x.isNA = false)
    (hne : l ≠ []) :
    seriesMin l ∈ l ∧ ∀ x ∈ l, geB x (seriesMin l) = true := by
  have hfil : l.filter (fun v => !v.isNA) = l := by
    apply List.filter_eq_self.mpr
    intro x hx
    rw [hno x hx]
    rfl
  cases l with
  | nil => exact absurd rfl hne
  | cons v vs =>
    have hval : seriesMin (v :: vs) = vs.foldl pmin2 v := by
      unfold seriesMin
      rw [hfil]
    rw [hval]
    constructor
    · rcases foldl_pmin2_mem vs v with h | h
      · rw [h]; exact List.mem_cons_self v vs
      · exact List.mem_cons_of_mem v h
    · intro x hx
      exact foldl_pmin2_le vs v x (by simpa using List.mem_cons.1 hx)

theorem seriesMax_spec (l : List PVal) (hno : ∀ x ∈ l, x.isNA = false)
    (hne : l ≠ []) :
    seriesMax l ∈ l ∧ ∀ x ∈ l, geB (seriesMax l) x = true := by
  have hfil : l.filter (fun v => !v.isNA) = l := by
    apply List.filter_eq_self.mpr
    intro x hx
    rw [hno x hx]
    rfl
  cases l with
  | nil => exact absurd rfl hne
  | cons v vs =>
    have hval : seriesMax (v :: vs) = vs.foldl pmax2 v := by
      unfold seriesMax
      rw [hfil]
    rw [hval]
    constructor
    · rcases foldl_pmax2_mem vs v with h | h
      · rw [h]; exact List.mem_cons_self v vs
      · exact List.mem_cons_of_mem v h
    · intro x hx
      exact foldl_pmax2_ge vs v x (by simpa using List.mem_cons.1 hx)

theorem min_delayOf_spec (l : List PVal) :
    (l.filter gtZero = [] → min_delayOf l = PVal.num 0) ∧
    (l.filter gtZero ≠ [] →
      min_delayOf l ∈ l.filter gtZero ∧
      ∀ v ∈ l.filter gtZero, geB v (min_delayOf l) = true) := by
  constructor
  · intro h
    unfold min_delayOf
    rw [h]
    rfl
  · intro h
    have hno : ∀ x ∈ l.filter gtZero, x.isNA = false := by
      intro x hx
      exact gtZero_not_na (List.of_mem_filter hx)
    obtain ⟨hmem, hle⟩ := seriesMin_spec (l.filter gtZero) hno h
    have hie : (l.filter gtZero).isEmpty = false := by
      cases hc : l.filter gtZero with
      | nil => exact absurd hc h
      | cons a as => rfl
    have hna : (seriesMin (l.filter gtZero)).isNA = false := hno _ hmem
    have hred : min_delayOf l = seriesMin (l.filter gtZero) := by
      unfold min_delayOf
      rw [hie, hna]
      simp
    rw [hred]
    exact ⟨hmem, hle⟩

theorem max_delayOf_spec (l : List PVal) :
    (l.filter (fun v => !v.isNA) = [] → max_delayOf l = PVal.num 0) ∧
    (l.filter (fun v => !v.isNA) ≠ [] →
      max_delayOf l ∈ l.filter (fun v => !v.isNA) ∧
      ∀ v ∈ l.filter (fun v => !v.isNA), geB (max_delayOf l) v = true) := by
  constructor
  · intro h
    unfold max_delayOf seriesMax
    rw [h]
    rfl
  · intro h
    have hno : ∀ x ∈ l.filter (fun v => !v.isNA), x.isNA = false := by
      intro x hx
      have := List.of_mem_filter hx
      simpa using this
    have hidem : (l.filter (fun v => !v.isNA)).filter (fun v => !v.isNA)
        = l.filter (fun v => !v.isNA) := by
      apply List.filter_eq_self.mpr
      intro x hx
      exact (List.mem_filter.mp hx).2
    have heq : seriesMax l = seriesMax (l.filter (fun v => !v.isNA)) := by
      unfold seriesMax
      rw [hidem]
    obtain ⟨hmem, hge⟩ := seriesMax_spec (l.filter (fun v => !v.isNA)) hno h
    rw [← heq] at hmem hge
    have hna : (seriesMax l).isNA = false := hno _ hmem
    have hred : max_delayOf l = seriesMax l := by
      unfold max_delayOf
      rw [hna]
      simp
    rw [hred]
    exact ⟨hmem, hge⟩

theorem top10By_spec (rs : List Record) (f : Record → PVal) :
    (top10By rs f).length ≤ 10 ∧
    (top10By rs f).Pairwise (fun a b => geB (f a) (f b) = true) ∧
    ((rs.all fun r => (f r).isNA) = true → top10By rs f = []) := by
  unfold top10By
  by_cases h : (rs.all fun r => (f r).isNA) = true
  · simp [h]
  · rw [if_neg h]
    refine ⟨List.length_take_le 10 _, ?_, fun habs => absurd habs h⟩
    exact List.Pairwise.sublist (List.take_sublist 10 _)
      (pairwise_isort (fun a b => geB (f a) (f b))
        (fun x y z hxy hyz => geB_trans _ _ _ hxy hyz)
        (fun x y => geB_total (f x) (f y)) rs)

theorem getTop10_spec (data : List JRecord) (f : JRecord → ℚ) :
    (getTop10 data f).length ≤ 10 ∧
    (getTop10 data f).Pairwise (fun a b => b.value ≤ a.value) := by
  unfold getTop10
  by_cases h : data.length = 0
  · simp [h]
  · rw [if_neg h]
    constructor
    · rw [List.length_map]
      exact List.length_take_le 10 _
    · rw [List.pairwise_map]
      have hp := pairwise_isort (fun a b => decide (f b ≤ f a))
        (fun x y z hxy hyz => by
          simp only [decide_eq_true_eq] at hxy hyz ⊢
          exact le_trans hyz hxy)
        (fun x y => by
          rcases le_total (f y) (f x) with h1 | h1
          · left; simpa
          · right; simpa) data
      have hp10 := List.Pairwise.sublist (List.take_sublist 10 _) hp
      exact hp10.imp (fun {a b} hab => by simpa using hab)

theorem trendOf_fst (ks : List WeekBucket) :
    (trendOf ks).map Prod.fst = isort wbLeB (firsts ks) := by
  unfold trendOf
  rw [List.map_map]
  have hid : (Prod.fst ∘ fun k => (k, ks.count k)) = id := rfl
  rw [hid, List.map_id]

theorem trendOf_sorted (ks : List WeekBucket) :
    ((trendOf ks).map Prod.fst).Pairwise wbLt := by
  rw [trendOf_fst]
  have hpw := pairwise_isort wbLeB wbLeB_trans wbLeB_total (firsts ks)
  have hnd : (isort wbLeB (firsts ks)).Nodup :=
    nodup_isort wbLeB (firsts ks) (nodup_firsts ks)
  exact hpw.and hnd

theorem trendOf_mem (ks : List WeekBucket) (b : WeekBucket) (n : ℕ) :
    (b, n) ∈ trendOf ks ↔ b ∈ ks ∧ n = ks.count b := by
  unfold trendOf
  constructor
  · intro h
    rcases List.mem_map.1 h with ⟨k, hk, hpair⟩
    cases hpair
    rw [mem_isort, mem_firsts] at hk
    exact ⟨hk, rfl⟩
  · rintro ⟨hb, rfl⟩
    exact List.mem_map.2 ⟨b, by rw [mem_isort, mem_firsts]; exact hb, rfl⟩

theorem trendGuard_spec (rs : List Record) (g : Record → Option Int)
    (tr : List (WeekBucket × ℕ))
    (he : tr = if (!(rs.all fun r => (g r).isNone)) = true
               then trendOf (rs.map fun r => bucketOf (g r)) else []) :
    ((rs.all fun r => (g r).isNone) = true → tr = []) ∧
    (tr.map Prod.fst).Pairwise wbLt ∧
    (∀ b n, (b, n) ∈ tr ↔
      (rs.all fun r => (g r).isNone) = false ∧
      b ∈ rs.map (fun r => bucketOf (g r)) ∧
      n = (rs.map (fun r => bucketOf (g r))).count b) := by
  cases h : rs.all fun r => (g r).isNone with
  | true =>
    rw [h] at he
    simp only [Bool.not_true, Bool.false_eq_true, if_false] at he
    subst he
    refine ⟨fun _ => rfl, by simp, fun b n => ?_⟩
    simp [h]
  | false =>
    rw [h] at he
    simp only [Bool.not_false, if_pos] at he
    subst he
    refine ⟨fun habs => absurd habs (by simp [h]), trendOf_sorted _, fun b n => ?_⟩
    rw [trendOf_mem]
    simp [h]

theorem countPos_serialized (rs : List Record) (f : Record → PVal)
    (jf : JRecord → ℚ) (hcomp : ∀ r, jf (serializeRecord r) = jsonNum (f r))
    (h : ∀ r ∈ rs, (f r).isInf = false) :
    ((rs.map serializeRecord).map jf).countP (fun d => decide (0 < d))
      = countPos (rs.map f) := by
  unfold countPos
  rw [List.map_map, List.countP_map, List.countP_map]
  apply List.countP_congr
  intro r hr
  simp only [Function.comp_apply, hcomp r]
  cases hv : f r with
  | na => rfl
  | num q => rfl
  | inf b =>
    have := h r hr
    rw [hv] at this
    exact absurd this (by simp [PVal.isInf])

/-! ### Claim theorems -/

/-- C1 (counterexample).  The claim says the server-side `get_metrics` and the
client-side `calculateMetrics` agree on every numeric field of the snapshot up
to one-decimal display rounding, for every record subset.  This fails already
on the scalar KPIs: for the single record with `delay = -3` the server shows
`min_delay = 0.0` (its minimum ranges over strictly positive delays only)
while the client shows `min_delay = -3.0` (`Math.min` over all delay values).
`kpisAgree` is a necessary condition of the claimed full-snapshot equality,
and it fails here. -/
theorem C1_counterexample : ¬ kpisAgree (get_metrics [recDelay (.num (-3))])
    (calculateMetrics ([recDelay (.num (-3))].map serializeRecord)) :=
  fun h => absurd h.2.2.2.2.2.2.2.2 (by decide)

/-- C1 (amended).  What does hold: on rows whose numeric cells are finite or
null (no infinities, which serialization silently zeroes), the two
implementations agree exactly on `total_csrs`, `pct_late`, `num_dev_gt30` and
`num_devlib_gt60`.  The averages, `min_delay`, `max_delay`, the per-entity
delay maps, the trend labels and the top-10 contents can all differ. -/
theorem C1_amended_agreement : ∀ rs : List Record,
    (∀ r ∈ rs, r.delay.isInf = false ∧ r.dev30.isInf = false ∧
      r.dev60.isInf = false) →
    (get_metrics rs).total_csrs
        = (calculateMetrics (rs.map serializeRecord)).total_csrs ∧
    (get_metrics rs).pct_late
        = (calculateMetrics (rs.map serializeRecord)).pct_late ∧
    (get_metrics rs).num_dev_gt30
        = (calculateMetrics (rs.map serializeRecord)).num_dev_gt30 ∧
    (get_metrics rs).num_devlib_gt60
        = (calculateMetrics (rs.map serializeRecord)).num_devlib_gt60 := by
  intro rs h
  have hlen : (rs.map serializeRecord).length = rs.length := List.length_map _ _
  have hd := countPos_serialized rs (fun r => r.delay) (fun d => d.delay)
    (fun r => rfl) (fun r hr => (h r hr).1)
  have h30 := countPos_serialized rs (fun r => r.dev30) (fun d => d.dev30)
    (fun r => rfl) (fun r hr => (h r hr).2.1)
  have h60 := countPos_serialized rs (fun r => r.dev60) (fun d => d.dev60)
    (fun r => rfl) (fun r hr => (h r hr).2.2)
  refine ⟨?_, ?_, ?_, ?_⟩
  · show rs.length = (rs.map serializeRecord).length
    rw [hlen]
  · show pctPos (rs.map fun r => r.delay) rs.length =
      (if 0 < (rs.map serializeRecord).length then
        ((((rs.map serializeRecord).map (fun d => d.delay)).countP
            (fun d => decide (0 < d)) : ℚ)
          / ((rs.map serializeRecord).length : ℚ)) * 100
       else 0)
    rw [hlen, hd]
    rfl
  · show countPos (rs.map fun r => r.dev30) =
      ((rs.map serializeRecord).map (fun d => d.dev30)).countP
        (fun d => decide (0 < d))
    rw [h30]
  · show countPos (rs.map fun r => r.dev60) =
      ((rs.map serializeRecord).map (fun d => d.dev60)).countP
        (fun d => decide (0 < d))
    rw [h60]

/-- C1 (witness): the amended agreement at a concrete clean row. -/
theorem C1_witness :
    (get_metrics [wRec]).pct_late
        = (calculateMetrics ([wRec].map serializeRecord)).pct_late ∧
    (get_metrics [wRec]).num_dev_gt30
        = (calculateMetrics ([wRec].map serializeRecord)).num_dev_gt30 := by
  have h := C1_amended_agreement [wRec] (by decide)
  exact ⟨h.2.1, h.2.2.1⟩

/-- C2 (counterexample).  The claim: `min_delay` is the minimum over strictly
positive *finite* delays and `0.0` when no such value exists.  On the row
whose delay cell is `+∞` there is no positive finite delay, so the claim
demands `0.0`; the code's mask `series > 0` keeps `+∞`, so `get_metrics`
returns `min_delay = +∞ ≠ 0.0` (and its `max` is likewise not a maximum of
finite values there). -/
theorem C2_counterexample :
    (finiteVals ([recDelay (.inf true)].map (fun r => r.delay))).filter
      (fun q => decide (0 < q)) = [] ∧
    (get_metrics [recDelay (.inf true)]).min_delay ≠ PVal.num 0 := by
  constructor
  · decide
  · decide

/-- C2 (amended).  `min_delay` is the least element (in the pandas order with
`-∞ < finite < +∞`) of the strictly positive non-NaN delays — infinities
included — and `0.0` when that set is empty; `max_delay` is the greatest
non-NaN delay — infinities included — and `0.0` when every delay is NaN.
On delays `[-3, 0, 2, 7]` this gives `min_delay = 2` and `max_delay = 7`,
as the claim's example states. -/
theorem C2_min_max_characterization :
    (∀ rs : List Record,
      ((rs.map (fun r => r.delay)).filter gtZero = [] →
        (get_metrics rs).min_delay = PVal.num 0) ∧
      ((rs.map (fun r => r.delay)).filter gtZero ≠ [] →
        (get_metrics rs).min_delay ∈ (rs.map (fun r => r.delay)).filter gtZero ∧
        ∀ v ∈ (rs.map (fun r => r.delay)).filter gtZero,
          geB v (get_metrics rs).min_delay = true) ∧
      ((rs.map (fun r => r.delay)).filter (fun v => !v.isNA) = [] →
        (get_metrics rs).max_delay = PVal.num 0) ∧
      ((rs.map (fun r => r.delay)).filter (fun v => !v.isNA) ≠ [] →
        (get_metrics rs).max_delay ∈
          (rs.map (fun r => r.delay)).filter (fun v => !v.isNA) ∧
        ∀ v ∈ (rs.map (fun r => r.delay)).filter (fun v => !v.isNA),
          geB (get_metrics rs).max_delay v = true)) ∧
    (get_metrics [recDelay (.num (-3)), recDelay (.num 0), recDelay (.num 2),
        recDelay (.num 7)]).min_delay = PVal.num 2 ∧
    (get_metrics [recDelay (.num (-3)), recDelay (.num 0), recDelay (.num 2),
        recDelay (.num 7)]).max_delay = PVal.num 7 := by
  refine ⟨?_, by decide, by decide⟩
  intro rs
  have hmin := min_delayOf_spec (rs.map (fun r => r.delay))
  have hmax := max_delayOf_spec (rs.map (fun r => r.delay))
  have e1 : (get_metrics rs).min_delay = min_delayOf (rs.map (fun r => r.delay)) := rfl
  have e2 : (get_metrics rs).max_delay = max_delayOf (rs.map (fun r => r.delay)) := rfl
  rw [e1, e2]
  exact ⟨hmin.1, hmin.2, hmax.1, hmax.2⟩

/-- C2 (witness): on an all-NaN row both statistics fall back to `0.0`. -/
theorem C2_witness :
    (get_metrics [blankRecord]).min_delay = PVal.num 0 ∧
    (get_metrics [blankRecord]).max_delay = PVal.num 0 := by
  have h := C2_min_max_characterization.1 [blankRecord]
  exact ⟨h.1 (by decide), h.2.2.1 (by decide)⟩

/-- C3.  `get_metrics` is a total Lean function of the record table by
construction (every branch degrades to zero or empty, mirroring the script's
guards), and on the empty table it returns exactly the all-zero/all-empty
snapshot the claim describes. -/
theorem C3_compute_empty : get_metrics [] =
    { total_csrs := 0, avg_delay := 0, pct_late := 0, avg_dev_gt30 := 0,
      num_dev_gt30 := 0, avg_devlib_gt60 := 0, num_devlib_gt60 := 0,
      max_delay := .num 0, min_delay := .num 0, by_estado := [], by_pr := [],
      by_tipo := [], by_persona := [], by_dev := [], delay_by_persona := [],
      delay_by_dev := [], created_trend := [], resolved_trend := [],
      top_late := [], top_dev_gt30 := [], top_devlib_gt60 := [] } := rfl

/-- C4 (counterexample).  The claim says each top-10 list excludes every
record whose ranked field is null.  It does not: `sort_values(...).head(10)`
only pushes NaN rows to the end, so with two records — one with `delay = 5`,
one with a null delay — the null-delay record appears in `top_late`. -/
theorem C4_counterexample :
    blankRecord ∈ (get_metrics [blankRecord, recDelay (.num 5)]).top_late ∧
    blankRecord.delay.isNA = true := by
  constructor
  · decide
  · rfl

/-- C4 (amended).  Each of the three server-side top-10 lists has at most 10
entries and is sorted descending by the ranked field in the pandas order in
which every null ranks below every value (null rows are included, after all
ranked rows, when fewer than 10 rows have a value; the list is empty only
when the whole column is null).  The client-side `getTop10` lists likewise
have at most 10 entries and are sorted descending by the serialized (null→0)
value.  Tie order is whatever the underlying sort produces — pandas'
default `sort_values` kind is quicksort, which is not stable, so the claim's
stable-tie-break clause is not warranted by the code; the model uses a
stable sort, and the properties proved here do not depend on it. -/
theorem C4_top10_bounded_sorted : ∀ (rs : List Record) (jd : List JRecord),
    ((rs.all fun r => r.delay.isNA) = true → (get_metrics rs).top_late = []) ∧
    (get_metrics rs).top_late.length ≤ 10 ∧
    (get_metrics rs).top_late.Pairwise (fun a b => geB a.delay b.delay = true) ∧
    ((rs.all fun r => r.dev30.isNA) = true → (get_metrics rs).top_dev_gt30 = []) ∧
    (get_metrics rs).top_dev_gt30.length ≤ 10 ∧
    (get_metrics rs).top_dev_gt30.Pairwise (fun a b => geB a.dev30 b.dev30 = true) ∧
    ((rs.all fun r => r.dev60.isNA) = true → (get_metrics rs).top_devlib_gt60 = []) ∧
    (get_metrics rs).top_devlib_gt60.length ≤ 10 ∧
    (get_metrics rs).top_devlib_gt60.Pairwise
      (fun a b => geB a.dev60 b.dev60 = true) ∧
    (calculateMetrics jd).top_late.length ≤ 10 ∧
    (calculateMetrics jd).top_late.Pairwise (fun a b => b.value ≤ a.value) ∧
    (calculateMetrics jd).top_dev_gt30.length ≤ 10 ∧
    (calculateMetrics jd).top_dev_gt30.Pairwise (fun a b => b.value ≤ a.value) ∧
    (calculateMetrics jd).top_devlib_gt60.length ≤ 10 ∧
    (calculateMetrics jd).top_devlib_gt60.Pairwise
      (fun a b => b.value ≤ a.value) := by
  intro rs jd
  obtain ⟨l1, p1, e1⟩ := top10By_spec rs (fun r => r.delay)
  obtain ⟨l2, p2, e2⟩ := top10By_spec rs (fun r => r.dev30)
  obtain ⟨l3, p3, e3⟩ := top10By_spec rs (fun r => r.dev60)
  obtain ⟨jl1, jp1⟩ := getTop10_spec jd (fun d => d.delay)
  obtain ⟨jl2, jp2⟩ := getTop10_spec jd (fun d => d.dev30)
  obtain ⟨jl3, jp3⟩ := getTop10_spec jd (fun d => d.dev60)
  exact ⟨e1, l1, p1, e2, l2, p2, e3, l3, p3, jl1, jp1, jl2, jp2, jl3, jp3⟩

/-- C4 (witness): the amended theorem applied at concrete inputs, discharging
the all-null hypothesis. -/
theorem C4_witness :
    (get_metrics [blankRecord]).top_late = [] ∧
    (calculateMetrics []).top_late.length ≤ 10 := by
  have h := C4_top10_bounded_sorted [blankRecord] []
  exact ⟨h.1 (by decide), h.2.2.2.2.2.2.2.2.2.1⟩

/-- C5 (counterexample).  The claim says each weekly trend excludes every
record whose timestamp is null.  But `to_period('W').astype(str)` turns NaT
into the literal string `'NaT'`, a perfectly valid group key: with one record
created on day 0 and one with a null `Creada`, `created_trend` has a `'NaT'`
bucket counting the null record. -/
theorem C5_counterexample :
    (get_metrics [{ blankRecord with creada := some 0 }, blankRecord]).created_trend
      = [(.w 0, 1), (.natLabel, 1)] ∧
    blankRecord.creada = none := by
  constructor
  · decide
  · rfl

/-- C5 (amended).  Each weekly trend maps week buckets to the number of
records falling in the bucket, is ordered strictly ascending by the bucket
label, and is empty when the column is entirely null; but when the column is
only partly null the records with a null timestamp are NOT excluded — they
are counted under the `'NaT'` bucket (which sorts after every date label). -/
theorem C5_trend_characterization : ∀ rs : List Record,
    ((rs.all fun r => r.creada.isNone) = true →
      (get_metrics rs).created_trend = []) ∧
    ((get_metrics rs).created_trend.map Prod.fst).Pairwise wbLt ∧
    (∀ b n, ((b, n) ∈ (get_metrics rs).created_trend ↔
      (rs.all fun r => r.creada.isNone) = false ∧
      b ∈ rs.map (fun r => bucketOf r.creada) ∧
      n = (rs.map (fun r => bucketOf r.creada)).count b)) ∧
    ((rs.all fun r => r.fechaReal.isNone) = true →
      (get_metrics rs).resolved_trend = []) ∧
    ((get_metrics rs).resolved_trend.map Prod.fst).Pairwise wbLt ∧
    (∀ b n, ((b, n) ∈ (get_metrics rs).resolved_trend ↔
      (rs.all fun r => r.fechaReal.isNone) = false ∧
      b ∈ rs.map (fun r => bucketOf r.fechaReal) ∧
      n = (rs.map (fun r => bucketOf r.fechaReal)).count b)) := by
  intro rs
  obtain ⟨a1, a2, a3⟩ := trendGuard_spec rs (fun r => r.creada)
    (get_metrics rs).created_trend rfl
  obtain ⟨b1, b2, b3⟩ := trendGuard_spec rs (fun r => r.fechaReal)
    (get_metrics rs).resolved_trend rfl
  exact ⟨a1, a2, a3, b1, b2, b3⟩

/-- C5 (witness): both trends are empty on an all-null table. -/
theorem C5_witness :
    (get_metrics [blankRecord]).created_trend = [] ∧
    (get_metrics [blankRecord]).resolved_trend = [] := by
  have h := C5_trend_characterization [blankRecord]
  exact ⟨h.1 (by decide), h.2.2.2.1 (by decide)⟩

/-- C6 (counterexample).  The claim says `get_metrics` leaves the input table
unchanged.  It does not: on a table with a non-null `Creada` it assigns the
derived `Creada_week` column to the caller's DataFrame. -/
theorem C6_counterexample : (get_metricsFull
      { rows := [{ blankRecord with creada := some 0 }], creadaWeek := none }).1
    ≠ { rows := [{ blankRecord with creada := some 0 }], creadaWeek := none } := by
  decide

/-- C6 (amended).  `get_metrics` never changes any row value of the existing
columns — the rows pass through identically — but it is not free of side
effects on the table: whenever `Creada` is not entirely null it adds (or
overwrites) the derived `Creada_week` column; otherwise the table is
untouched. -/
theorem C6_frame_rows_preserved : ∀ t : Table,
    (get_metricsFull t).1.rows = t.rows ∧
    (get_metricsFull t).1.creadaWeek =
      (if (t.rows.all fun r => r.creada.isNone) = true then t.creadaWeek
       else some (t.rows.map fun r => bucketOf r.creada)) := by
  intro t
  unfold get_metricsFull
  cases h : t.rows.all fun r => r.creada.isNone <;> simp [h]

/-- C7.  `resetFilters` recomputes the snapshot from the full original
payload from scratch, so applying a single categorical filter with
`filterData` and then `resetFilters` redraws exactly the snapshot of the
original unfiltered computation, whatever was selected. -/
theorem C7_filter_then_reset : ∀ (data : List JRecord) (i : Fin 5) (v : String),
    (resetFilters data (filterData data
      { initialState data with
        controls := setSingleCategorical i v (initialState data).controls })).snapshot
    = calculateMetrics data :=
  fun _ _ _ => rfl

/-- C8 (counterexample).  The claim says every record with both release
timestamps present ends up with `delay_days` equal to their difference even
when the source omitted the value.  But the derivation is guarded at column
level: in a table whose delay column exists and has at least one value
(here `5`), the second record — both dates present, delay missing — keeps
its NaN delay instead of the difference `7`. -/
theorem C8_counterexample :
    (preprocess_data cexSrcTable)[1]? = some rTwoDates ∧
    rTwoDates.fechaReal.isSome = true ∧ rTwoDates.fechaPlan.isSome = true ∧
    rTwoDates.delay ≠ PVal.num 7 := by
  refine ⟨by decide, rfl, rfl, by decide⟩

/-- C8 (amended).  The derivation happens only when the source lacks the
delay column entirely or the column is entirely null; in that case every
record with both release timestamps present gets `delay = actual - planned`
in days (and it is an ordinary column value for everything downstream).
When the column has at least one non-null value, `preprocess_data` leaves
the rows exactly as they are — per-record gaps are not filled. -/
theorem C8_derivation_guarded :
    (∀ t : SrcTable,
      (t.hasDelayCol = false ∨ (t.rows.all fun r => r.delay.isNA) = true) →
      ∀ r ∈ preprocess_data t, ∀ a p : Int,
        r.fechaReal = some a → r.fechaPlan = some p →
        r.delay = PVal.num ((a - p : Int) : ℚ)) ∧
    (∀ t : SrcTable, t.hasDelayCol = true →
      (t.rows.all fun r => r.delay.isNA) = false → preprocess_data t = t.rows) := by
  constructor
  · intro t hcond r hr a p hra hrp
    have hguard : (!t.hasDelayCol || (t.rows.all fun r => r.delay.isNA)) = true := by
      rcases hcond with h1 | h1 <;> simp [h1]
    unfold preprocess_data at hr
    rw [if_pos hguard] at hr
    rcases List.mem_map.1 hr with ⟨r0, _, rfl⟩
    have hra0 : r0.fechaReal = some a := hra
    have hrp0 : r0.fechaPlan = some p := hrp
    show deriveDelay r0 = PVal.num ((a - p : Int) : ℚ)
    unfold deriveDelay
    rw [hra0, hrp0]
  · intro t h1 h2
    unfold preprocess_data
    rw [if_neg]
    simp [h1, h2]

/-- C8 (witness): the derived row for a missing column, and the untouched
table for a present column. -/
theorem C8_witness :
    rDerived.delay = PVal.num ((10 - 3 : Int) : ℚ) ∧
    preprocess_data cexSrcTable = cexSrcTable.rows := by
  constructor
  · exact C8_derivation_guarded.1 srcNoCol (Or.inl rfl) rDerived (by decide) 10 3 rfl rfl
  · exact C8_derivation_guarded.2 cexSrcTable rfl (by decide)

/-- C9.  In the filter predicate, a record with a null release date fails the
date-range test exactly when at least one of the two bounds is set, and
passes it when neither is. -/
theorem C9_null_date_test : ∀ s e : Option Int,
    (matchDate s e none = false ↔ s.isSome = true ∨ e.isSome = true) ∧
    matchDate s e none = !(s.isSome || e.isSome) := by
  intro s e
  constructor
  · cases s <;> cases e <;> simp [matchDate]
  · rfl

/-- C10.  Every numeric cell of the serialized payload is a finite number:
NaN and both infinities are replaced by `0`
(`replace([inf, -inf], nan).fillna(0)`), so the serialized cell of a missing
or non-finite value is indistinguishable from a true zero, and the record
fields embed exactly these collapsed values. -/
theorem C10_serialized_numerics_finite : ∀ (b : Bool) (q : ℚ) (r : Record) (v : PVal),
    jsonNumP v = PVal.num (jsonNum v) ∧
    jsonNum PVal.na = 0 ∧ jsonNum (PVal.inf b) = 0 ∧ jsonNum (PVal.num q) = q ∧
    jsonNum PVal.na = jsonNum (PVal.num 0) ∧
    (serializeRecord r).delay = jsonNum r.delay ∧
    (serializeRecord r).dev30 = jsonNum r.dev30 ∧
    (serializeRecord r).dev60 = jsonNum r.dev60 := by
  intro b q r v
  refine ⟨?_, rfl, ?_, rfl, rfl, rfl, rfl, rfl⟩
  · cases v with
    | na => rfl
    | num u => rfl
    | inf c => cases c <;> rfl
  · cases b <;> rfl
